import Mathlib

/-!
Verification of the guest-session image gallery backend (src/backend/app.py).

The Flask handlers are embedded as pure functions over an explicit `Store`
holding the `users` and `images` tables.  Each handler takes the store, the
guest token from the `X-Guest-ID` header, and its request body, and returns
an `Except ApiError result` together with the resulting store.  Time
(`datetime.utcnow()`) and server-generated ids are passed as explicit
parameters.  Database queries (`select ... eq ...`, `order`, `limit 1`,
`update ... eq`, `delete ... eq`) are modelled as list filtering, sorting
(`List.insertionSort`) and mapping over the corresponding table.
-/

namespace Gallery

/-- A row of the `users` table. -/
structure User where
  id : Nat
  guest_id : String
  created_at : Nat
  last_accessed : Nat
deriving DecidableEq

/-- A row of the `images` table. -/
structure Image where
  id : Nat
  user_id : Nat
  title : String
  image_url : String
  description : String
  display_order : Int
  created_at : Nat
  updated_at : Nat
deriving DecidableEq

/-- The external database state: both tables, in row order. -/
structure Store where
  users : List User
  images : List Image
deriving DecidableEq

/-- Error outcomes surfaced by the handlers (HTTP 404, 400, 500). -/
inductive ApiError where
  | NotFound (msg : String)
  | InvalidInput (msg : String)
  | StoreError (msg : String)
deriving DecidableEq

instance {ε α : Type} [DecidableEq ε] [DecidableEq α] : DecidableEq (Except ε α) := fun a b =>
  match a, b with
  | .error e, .error f =>
    if h : e = f then isTrue (by rw [h]) else isFalse (fun hc => h (Except.error.inj hc))
  | .error _, .ok _ => isFalse (fun hc => Except.noConfusion hc)
  | .ok _, .error _ => isFalse (fun hc => Except.noConfusion hc)
  | .ok x, .ok y =>
    if h : x = y then isTrue (by rw [h]) else isFalse (fun hc => h (Except.ok.inj hc))

/-- Ascending comparison on `display_order`, used by `order("display_order")`. -/
def imgLE (a b : Image) : Prop := a.display_order ≤ b.display_order

/-- Descending comparison on `display_order`, used by
`order("display_order", desc=True)`. -/
def imgGE (a b : Image) : Prop := b.display_order ≤ a.display_order

instance : DecidableRel imgLE := fun a b =>
  inferInstanceAs (Decidable (a.display_order ≤ b.display_order))

instance : DecidableRel imgGE := fun a b =>
  inferInstanceAs (Decidable (b.display_order ≤ a.display_order))

instance : IsTotal Image imgLE := ⟨fun a b => le_total a.display_order b.display_order⟩

instance : IsTrans Image imgLE := ⟨fun _ _ _ h h' => le_trans h h'⟩

instance : IsTotal Image imgGE := ⟨fun a b => le_total b.display_order a.display_order⟩

instance : IsTrans Image imgGE := ⟨fun _ _ _ h h' => le_trans h' h⟩

/-- `select("id").eq("guest_id", guest_id)` followed by `data[0]["id"]`:
the user id resolved from a guest token, `none` when no row matches.
Every image handler performs this lookup. -/
def resolveUser (s : Store) (g : String) : Option Nat :=
  ((s.users.filter (fun u => u.guest_id == g)).head?).map (fun u => u.id)

/-- The images owned by `uid`, in table row order
(`select("*").eq("user_id", user_id)`). -/
def userImages (s : Store) (uid : Nat) : List Image :=
  s.images.filter (fun i => i.user_id == uid)

/-- `GET /api/images` (`get_images`): resolve the guest, then return the
user's images ordered ascending by `display_order`. -/
def get_images (s : Store) (g : String) : Except ApiError (List Image) × Store :=
  match resolveUser s g with
  | none => (.error (.NotFound "User not found"), s)
  | some uid =>
      (.ok (List.insertionSort imgLE (userImages s uid)), s)

/-- The JSON body of `POST /api/images`; `none` models an absent key. -/
structure CreateInput where
  title : Option String
  image_url : Option String
  description : Option String
deriving DecidableEq

/-- `not data.get("image_url")`: true when the key is absent or its value
is the empty string. -/
def blankUrl : Option String → Bool
  | none => true
  | some u => u == ""

/-- `POST /api/images` (`create_image`): validate `image_url`, resolve the
guest, compute the next `display_order` from the user's maximal existing
order (descending sort, limit 1), and append the new row.  `newId` is the
server-generated row id and `now` the current timestamp. -/
def create_image (s : Store) (g : String) (input : CreateInput) (newId now : Nat) :
    Except ApiError Image × Store :=
  if blankUrl input.image_url then
    (.error (.InvalidInput "image_url is required"), s)
  else
    match resolveUser s g with
    | none => (.error (.NotFound "User not found"), s)
    | some uid =>
      let sorted := List.insertionSort imgGE (userImages s uid)
      let next_order : Int :=
        ((sorted.head?.map (fun i => i.display_order)).getD (-1)) + 1
      let img : Image :=
        { id := newId
          user_id := uid
          title := input.title.getD "Untitled"
          image_url := input.image_url.getD ""
          description := input.description.getD ""
          display_order := next_order
          created_at := now
          updated_at := now }
      (.ok img, { s with images := s.images ++ [img] })

/-- The JSON body of `PUT /api/images/{id}`; `none` models an absent key
(`"title" in data` etc.). -/
structure UpdateInput where
  title : Option String
  description : Option String
  image_url : Option String
  display_order : Option Int
deriving DecidableEq

/-- The `update_data` dict applied to a row: `updated_at` always refreshed,
each of the four optional fields overwritten only when present. -/
def applyUpdate (input : UpdateInput) (now : Nat) (i : Image) : Image :=
  { i with
    updated_at := now
    title := input.title.getD i.title
    description := input.description.getD i.description
    image_url := input.image_url.getD i.image_url
    display_order := input.display_order.getD i.display_order }

/-- `PUT /api/images/{id}` (`update_image`): resolve the guest, check that a
row with this `id` and `user_id` exists, then update every row with this
`id` and return the first updated row (`response.data[0]`; an empty update
result raises `IndexError`, caught as a 500). -/
def update_image (s : Store) (g : String) (image_id : Nat) (input : UpdateInput)
    (now : Nat) : Except ApiError Image × Store :=
  match resolveUser s g with
  | none => (.error (.NotFound "User not found"), s)
  | some uid =>
    match (s.images.filter (fun i => i.id == image_id && i.user_id == uid)).head? with
    | none => (.error (.NotFound "Image not found or access denied"), s)
    | some _ =>
      let newImages :=
        s.images.map (fun i => if i.id == image_id then applyUpdate input now i else i)
      let s' : Store := { s with images := newImages }
      match (newImages.filter (fun i => i.id == image_id)).head? with
      | some r => (.ok r, s')
      | none => (.error (.StoreError "list index out of range"), s')

/-- `DELETE /api/images/{id}` (`delete_image`): resolve the guest, check that
a row with this `id` and `user_id` exists, then delete every row with this
`id`. -/
def delete_image (s : Store) (g : String) (image_id : Nat) :
    Except ApiError String × Store :=
  match resolveUser s g with
  | none => (.error (.NotFound "User not found"), s)
  | some uid =>
    match (s.images.filter (fun i => i.id == image_id && i.user_id == uid)).head? with
    | none => (.error (.NotFound "Image not found or access denied"), s)
    | some _ =>
      (.ok "Image deleted",
       { s with images := s.images.filter (fun i => !(i.id == image_id)) })

/-- One `{id, order}` pair of the reorder request body. -/
structure OrderItem where
  id : Nat
  order : Int
deriving DecidableEq

/-- One iteration of the reorder loop: update `display_order` of every row
matching both `id` and `user_id`. -/
def applyOrderItem (uid : Nat) (images : List Image) (item : OrderItem) : List Image :=
  images.map (fun i =>
    if i.id == item.id && i.user_id == uid then { i with display_order := item.order } else i)

/-- `POST /api/images/reorder` (`reorder_images`): `data.get("order", [])`
(the `input` is `none` when the body has no `order` key), resolve the guest,
then update each listed pair in sequence. -/
def reorder_images (s : Store) (g : String) (input : Option (List OrderItem)) :
    Except ApiError String × Store :=
  let order_list := input.getD []
  match resolveUser s g with
  | none => (.error (.NotFound "User not found"), s)
  | some uid =>
    (.ok "Reordered", { s with images := order_list.foldl (applyOrderItem uid) s.images })

/-- The success body of `POST /api/auth/verify`. -/
structure VerifyResp where
  user_id : Nat
  guest_id : String
  created_at : Nat
deriving DecidableEq

/-- `POST /api/auth/verify` (`verify_guest`): look the user up by token,
404 when absent; otherwise set `last_accessed` of every user row with the
matched id to `now` and return the id, token and `created_at` read before
the update. -/
def verify_guest (s : Store) (g : String) (now : Nat) :
    Except ApiError VerifyResp × Store :=
  match (s.users.filter (fun u => u.guest_id == g)).head? with
  | none => (.error (.NotFound "Guest not found"), s)
  | some u =>
    let s' : Store :=
      { s with users :=
          s.users.map (fun v => if v.id == u.id then { v with last_accessed := now } else v) }
    (.ok { user_id := u.id, guest_id := u.guest_id, created_at := u.created_at }, s')

/-- The maximum `display_order` in a list of images, `none` when empty.
Specification-side description of the descending-sort-and-limit-1 query. -/
def maxDisplayOrder : List Image → Option Int
  | [] => none
  | i :: rest =>
    match maxDisplayOrder rest with
    | none => some i.display_order
    | some m => some (max i.display_order m)

/-- The `order` value of the last pair of `l` whose `id` is `imgId`,
`none` when no pair matches.  Specification-side description of the
sequential last-write-wins reorder loop. -/
def lastOrderFor (l : List OrderItem) (imgId : Nat) : Option Int :=
  match l with
  | [] => none
  | it :: rest =>
    match lastOrderFor rest imgId with
    | some v => some v
    | none => if it.id == imgId then some it.order else none

/-- The per-image effect of the whole reorder loop. -/
def applyItems (uid : Nat) (l : List OrderItem) (img : Image) : Image :=
  l.foldl (fun im it =>
    if im.id == it.id && im.user_id == uid then { im with display_order := it.order } else im) img

/-! Concrete stores used to instantiate the theorems below. -/

/-- A registered guest with user id 1. -/
def userA : User := { id := 1, guest_id := "tokA", created_at := 0, last_accessed := 0 }

/-- A second registered guest with user id 2. -/
def userB : User := { id := 2, guest_id := "tokB", created_at := 3, last_accessed := 4 }

/-- An image owned by `userB`. -/
def imgOfB : Image :=
  { id := 10, user_id := 2, title := "t", image_url := "u", description := "d",
    display_order := 0, created_at := 0, updated_at := 0 }

/-- Two guests; the only image belongs to `userB`. -/
def sAB : Store := { users := [userA, userB], images := [imgOfB] }

/-- The empty store: no guest token is registered. -/
def sEmpty : Store := { users := [], images := [] }

/-- An image of `userA` at `display_order` 0 (inserted out of order). -/
def imgA0 : Image :=
  { id := 20, user_id := 1, title := "a0", image_url := "u0", description := "",
    display_order := 0, created_at := 0, updated_at := 0 }

/-- An image of `userA` at `display_order` 1. -/
def imgA1 : Image :=
  { id := 21, user_id := 1, title := "a1", image_url := "u1", description := "",
    display_order := 1, created_at := 0, updated_at := 0 }

/-- An image of `userA` at `display_order` 2. -/
def imgA2 : Image :=
  { id := 22, user_id := 1, title := "a2", image_url := "u2", description := "",
    display_order := 2, created_at := 0, updated_at := 0 }

/-- `userA` with images at orders {0,1,2} (stored unsorted), plus `userB`
with one image. -/
def s012 : Store := { users := [userA, userB], images := [imgA2, imgA0, imgA1, imgOfB] }

end Gallery

namespace Gallery

/-! General lemmas about the embedded operations. -/

theorem filter_head?_of_mem {p : Image → Bool} {l : List Image} {x : Image}
    (hx : x ∈ l) (hp : p x = true) : ∃ y, (l.filter p).head? = some y := by
  cases hf : l.filter p with
  | nil =>
    rw [List.filter_eq_nil_iff] at hf
    exact absurd hp (hf x hx)
  | cons y t => exact ⟨y, rfl⟩

theorem resolveUser_eq_none {s : Store} {g : String}
    (h : ∀ u ∈ s.users, u.guest_id ≠ g) : resolveUser s g = none := by
  unfold resolveUser
  have : s.users.filter (fun u => u.guest_id == g) = [] := by
    rw [List.filter_eq_nil_iff]
    intro u hu
    simpa using h u hu
  rw [this]
  rfl

/-- Claim C1: for a resolved user `uid` and an image id that exists in the
store but every image bearing it is owned by a different user, both
`update_image` and `delete_image` fail with
`NotFound "Image not found or access denied"` and return the store
unchanged. -/
theorem C1_foreign_image_notfound (s : Store) (g : String) (uid image_id : Nat)
    (input : UpdateInput) (now : Nat)
    (hres : resolveUser s g = some uid)
    (hexists : ∃ i ∈ s.images, i.id = image_id)
    (hforeign : ∀ i ∈ s.images, i.id = image_id → i.user_id ≠ uid) :
    update_image s g image_id input now =
      (.error (.NotFound "Image not found or access denied"), s) ∧
    delete_image s g image_id =
      (.error (.NotFound "Image not found or access denied"), s) := by
  have hfil : s.images.filter (fun i => i.id == image_id && i.user_id == uid) = [] := by
    rw [List.filter_eq_nil_iff]
    intro i hi
    simp only [Bool.and_eq_true, beq_iff_eq, not_and]
    exact hforeign i hi
  exact ⟨by simp [update_image, hres, hfil], by simp [delete_image, hres, hfil]⟩

theorem C1_foreign_image_notfound_witness :
    resolveUser sAB "tokA" = some 1 ∧
    (∃ i ∈ sAB.images, i.id = 10) ∧
    (∀ i ∈ sAB.images, i.id = 10 → i.user_id ≠ 1) ∧
    (update_image sAB "tokA" 10 ⟨none, none, none, none⟩ 5 =
       (.error (.NotFound "Image not found or access denied"), sAB) ∧
     delete_image sAB "tokA" 10 =
       (.error (.NotFound "Image not found or access denied"), sAB)) :=
  ⟨by decide, by decide, by decide,
   C1_foreign_image_notfound sAB "tokA" 1 10 ⟨none, none, none, none⟩ 5
     (by decide) (by decide) (by decide)⟩

/-- Claim C2, counterexample: in a store with no registered users (so the
token `"g"` is unregistered), `create_image` with an absent `image_url`
fails with `InvalidInput "image_url is required"`, not with
`NotFound "User not found"` — the body validation runs before the token is
resolved, contradicting the claim. -/
theorem C2_counterexample :
    resolveUser sEmpty "g" = none ∧
    (create_image sEmpty "g" ⟨none, none, none⟩ 1 0).1 =
      .error (.InvalidInput "image_url is required") ∧
    (create_image sEmpty "g" ⟨none, none, none⟩ 1 0).1 ≠
      .error (.NotFound "User not found") := by
  refine ⟨rfl, rfl, ?_⟩
  intro h
  exact absurd h (by decide)

/-- Claim C2 (amended): `list`, `update`, `delete` and `reorder` resolve the
guest token first and abort with `NotFound "User not found"`, leaving the
store unchanged, when the token is unregistered; `create` does so as well
provided its `image_url` validation passes (a non-blank url), since that
validation runs before the token lookup. -/
theorem C2_amended_resolve_first (s : Store) (g : String)
    (hres : resolveUser s g = none)
    (image_id : Nat) (uinput : UpdateInput) (cinput : CreateInput)
    (newId now : Nat) (rinput : Option (List OrderItem))
    (hurl : blankUrl cinput.image_url = false) :
    get_images s g = (.error (.NotFound "User not found"), s) ∧
    create_image s g cinput newId now = (.error (.NotFound "User not found"), s) ∧
    update_image s g image_id uinput now = (.error (.NotFound "User not found"), s) ∧
    delete_image s g image_id = (.error (.NotFound "User not found"), s) ∧
    reorder_images s g rinput = (.error (.NotFound "User not found"), s) := by
  refine ⟨?_, ?_, ?_, ?_, ?_⟩ <;>
    simp [get_images, create_image, update_image, delete_image, reorder_images, hres, hurl]

theorem C2_amended_resolve_first_witness :
    resolveUser sEmpty "g" = none ∧
    blankUrl (some "http://x/1.png") = false ∧
    (get_images sEmpty "g" = (.error (.NotFound "User not found"), sEmpty) ∧
     create_image sEmpty "g" ⟨none, some "http://x/1.png", none⟩ 1 0 =
       (.error (.NotFound "User not found"), sEmpty) ∧
     update_image sEmpty "g" 10 ⟨none, none, none, none⟩ 0 =
       (.error (.NotFound "User not found"), sEmpty) ∧
     delete_image sEmpty "g" 10 = (.error (.NotFound "User not found"), sEmpty) ∧
     reorder_images sEmpty "g" (some [⟨10, 5⟩]) =
       (.error (.NotFound "User not found"), sEmpty)) :=
  ⟨by decide, by decide,
   C2_amended_resolve_first sEmpty "g" (by decide) 10 ⟨none, none, none, none⟩
     ⟨none, some "http://x/1.png", none⟩ 1 0 (some [⟨10, 5⟩]) (by decide)⟩

/-- Claim C4: for a resolved user, `get_images` succeeds without touching
the store and returns exactly the images whose `user_id` is that user's id
(a permutation of the ownership filter), sorted ascending by
`display_order`; when the user owns no images the result is the empty
sequence, still a success. -/
theorem C4_list_sorted (s : Store) (g : String) (uid : Nat)
    (hres : resolveUser s g = some uid) :
    ∃ l, get_images s g = (.ok l, s) ∧
      List.Perm l (userImages s uid) ∧
      List.Sorted imgLE l ∧
      (∀ i ∈ l, i.user_id = uid) ∧
      (userImages s uid = [] → l = []) := by
  refine ⟨List.insertionSort imgLE (userImages s uid), ?_, ?_, ?_, ?_, ?_⟩
  · unfold get_images
    rw [hres]
  · exact List.perm_insertionSort imgLE _
  · exact List.sorted_insertionSort imgLE _
  · intro i hi
    have hmem : i ∈ s.images.filter (fun x => x.user_id == uid) :=
      (List.perm_insertionSort imgLE _).subset hi
    simpa using List.of_mem_filter hmem
  · intro h
    rw [h]
    rfl

theorem C4_list_sorted_witness :
    resolveUser s012 "tokA" = some 1 ∧
    (∃ l, get_images s012 "tokA" = (.ok l, s012) ∧
      List.Perm l (userImages s012 1) ∧
      List.Sorted imgLE l ∧
      (∀ i ∈ l, i.user_id = 1) ∧
      (userImages s012 1 = [] → l = [])) :=
  ⟨by decide, C4_list_sorted s012 "tokA" 1 (by decide)⟩

/-- Claim C8: for a resolved user owning an image with the given id, delete
succeeds; a subsequent list for the same user never contains the deleted
id, and a second delete of the same id fails with
`NotFound "Image not found or access denied"`, leaving the store as it was
after the first delete. -/
theorem C8_delete_then_list (s : Store) (g : String) (uid image_id : Nat)
    (hres : resolveUser s g = some uid)
    (howned : ∃ i ∈ s.images, i.id = image_id ∧ i.user_id = uid) :
    ∃ s', delete_image s g image_id = (.ok "Image deleted", s') ∧
      (∃ l, get_images s' g = (.ok l, s') ∧ ∀ i ∈ l, i.id ≠ image_id) ∧
      delete_image s' g image_id =
        (.error (.NotFound "Image not found or access denied"), s') := by
  obtain ⟨i0, hi0, hid0, hown0⟩ := howned
  obtain ⟨y, hy⟩ :=
    filter_head?_of_mem (p := fun i => i.id == image_id && i.user_id == uid) hi0
      (by simp [hid0, hown0])
  refine ⟨{ s with images := s.images.filter (fun i => !(i.id == image_id)) }, ?_, ?_, ?_⟩
  · simp [delete_image, hres, hy]
  · have hres' : resolveUser
        { s with images := s.images.filter (fun i => !(i.id == image_id)) } g =
        some uid := hres
    refine ⟨List.insertionSort imgLE
      (userImages { s with images := s.images.filter (fun i => !(i.id == image_id)) } uid),
      ?_, ?_⟩
    · unfold get_images
      rw [hres']
    · intro i hi
      have hmem :
          i ∈ (s.images.filter (fun x => !(x.id == image_id))).filter
            (fun x => x.user_id == uid) :=
        (List.perm_insertionSort imgLE _).subset hi
      have hmem2 : i ∈ s.images.filter (fun x => !(x.id == image_id)) :=
        List.mem_of_mem_filter hmem
      have := List.of_mem_filter hmem2
      simpa using this
  · have hres' : resolveUser
        { s with images := s.images.filter (fun i => !(i.id == image_id)) } g =
        some uid := hres
    have hfil : (s.images.filter (fun i => !(i.id == image_id))).filter
        (fun i => i.id == image_id && i.user_id == uid) = [] := by
      rw [List.filter_eq_nil_iff]
      intro i hi
      have := List.of_mem_filter hi
      simp only [Bool.not_eq_eq_eq_not, Bool.not_true, beq_eq_false_iff_ne, ne_eq] at this
      simp [this]
    simp [delete_image, hres', hfil]

theorem C8_delete_then_list_witness :
    resolveUser s012 "tokA" = some 1 ∧
    (∃ i ∈ s012.images, i.id = 20 ∧ i.user_id = 1) ∧
    (∃ s', delete_image s012 "tokA" 20 = (.ok "Image deleted", s') ∧
      (∃ l, get_images s' "tokA" = (.ok l, s') ∧ ∀ i ∈ l, i.id ≠ 20) ∧
      delete_image s' "tokA" 20 =
        (.error (.NotFound "Image not found or access denied"), s')) :=
  ⟨by decide, by decide, C8_delete_then_list s012 "tokA" 1 20 (by decide) (by decide)⟩

/-! Lemmas for the update path, under unique image ids. -/

theorem applyUpdate_id (input : UpdateInput) (now : Nat) (i : Image) :
    (applyUpdate input now i).id = i.id := rfl

theorem filter_id_eq_singleton {l : List Image}
    (hnd : (l.map (fun i => i.id)).Nodup) {img : Image} (hmem : img ∈ l) :
    l.filter (fun i => i.id == img.id) = [img] := by
  induction l with
  | nil => simp at hmem
  | cons a rest ih =>
    rw [List.map_cons, List.nodup_cons] at hnd
    obtain ⟨ha, hrest⟩ := hnd
    rcases List.mem_cons.mp hmem with rfl | hmem'
    · rw [List.filter_cons_of_pos (by simp)]
      have hnil : rest.filter (fun i => i.id == img.id) = [] := by
        rw [List.filter_eq_nil_iff]
        intro b hb
        simp only [beq_iff_eq]
        intro hbid
        have hmm : b.id ∈ rest.map (fun i => i.id) := List.mem_map_of_mem _ hb
        rw [hbid] at hmm
        exact ha hmm
      rw [hnil]
    · have hane : (a.id == img.id) = false := by
        simp only [beq_eq_false_iff_ne, ne_eq]
        intro he
        have hmm : img.id ∈ rest.map (fun i => i.id) := List.mem_map_of_mem _ hmem'
        rw [← he] at hmm
        exact ha hmm
      rw [List.filter_cons_of_neg (by simp [hane]), ih hrest hmem']

theorem eq_of_mem_of_id_eq {l : List Image}
    (hnd : (l.map (fun i => i.id)).Nodup) {a b : Image}
    (ha : a ∈ l) (hb : b ∈ l) (h : a.id = b.id) : a = b := by
  have hfa : a ∈ l.filter (fun i => i.id == b.id) := by
    rw [List.mem_filter]
    exact ⟨ha, by simp [h]⟩
  rw [filter_id_eq_singleton hnd hb] at hfa
  simpa using hfa

/-- Claim C5: for a resolved user owning the image `img` with the requested
id (image ids being unique), `update_image` succeeds and returns a record
whose `title`, `description`, `image_url` and `display_order` take the
input values exactly when present (keeping `img`'s values when absent),
whose `updated_at` is refreshed to `now`, and whose `id`, `user_id` and
`created_at` are unchanged; the store replaces `img`'s row by that record
and leaves every other image row as it was. -/
theorem C5_update_partial (s : Store) (g : String) (uid image_id : Nat)
    (input : UpdateInput) (now : Nat) (img : Image)
    (hnd : (s.images.map (fun i => i.id)).Nodup)
    (hres : resolveUser s g = some uid)
    (hmem : img ∈ s.images) (hid : img.id = image_id) (hown : img.user_id = uid) :
    ∃ r s', update_image s g image_id input now = (.ok r, s') ∧
      r.title = input.title.getD img.title ∧
      r.description = input.description.getD img.description ∧
      r.image_url = input.image_url.getD img.image_url ∧
      r.display_order = input.display_order.getD img.display_order ∧
      r.updated_at = now ∧
      r.id = img.id ∧ r.user_id = img.user_id ∧ r.created_at = img.created_at ∧
      s'.users = s.users ∧
      s'.images = s.images.map (fun i => if i.id == image_id then r else i) := by
  subst hid
  obtain ⟨y, hy⟩ :=
    filter_head?_of_mem (p := fun i => i.id == img.id && i.user_id == uid) hmem
      (by simp [hown])
  have hpred : ∀ i ∈ s.images,
      ((fun i => i.id == img.id) ∘
        (fun i => if i.id == img.id then applyUpdate input now i else i)) i =
      (i.id == img.id) := by
    intro i _
    by_cases hi : (i.id == img.id) = true
    · simp only [Function.comp_apply, if_pos hi]
      rw [applyUpdate_id]
    · simp only [Function.comp_apply, if_neg hi]
  have hcomm :
      (s.images.map (fun i => if i.id == img.id then applyUpdate input now i else i)).filter
        (fun i => i.id == img.id) =
      (s.images.filter (fun i => i.id == img.id)).map
        (fun i => if i.id == img.id then applyUpdate input now i else i) := by
    rw [List.filter_map, List.filter_congr hpred]
  have hsingle := filter_id_eq_singleton hnd hmem
  have hhead :
      ((s.images.map (fun i => if i.id == img.id then applyUpdate input now i else i)).filter
        (fun i => i.id == img.id)).head? = some (applyUpdate input now img) := by
    rw [hcomm, hsingle]
    simp
  refine ⟨applyUpdate input now img,
    { s with images :=
        s.images.map (fun i => if i.id == img.id then applyUpdate input now i else i) },
    ?_, rfl, rfl, rfl, rfl, rfl, rfl, rfl, rfl, rfl, ?_⟩
  · simp only [update_image, hres, hy, hhead]
  · show s.images.map (fun i => if i.id == img.id then applyUpdate input now i else i) =
      s.images.map (fun i => if i.id == img.id then applyUpdate input now img else i)
    refine List.map_congr_left ?_
    intro i hi
    by_cases hieq : (i.id == img.id) = true
    · have : i = img := eq_of_mem_of_id_eq hnd hi hmem (by simpa using hieq)
      rw [this]
    · rw [if_neg (by simp_all), if_neg (by simp_all)]

theorem C5_update_partial_witness :
    (s012.images.map (fun i => i.id)).Nodup ∧
    resolveUser s012 "tokA" = some 1 ∧
    imgA0 ∈ s012.images ∧ imgA0.id = 20 ∧ imgA0.user_id = 1 ∧
    (∃ r s',
      update_image s012 "tokA" 20 ⟨some "new title", none, none, some 7⟩ 42 = (.ok r, s') ∧
      r.title = (some "new title").getD imgA0.title ∧
      r.description = (none : Option String).getD imgA0.description ∧
      r.image_url = (none : Option String).getD imgA0.image_url ∧
      r.display_order = (some (7 : Int)).getD imgA0.display_order ∧
      r.updated_at = 42 ∧
      r.id = imgA0.id ∧ r.user_id = imgA0.user_id ∧ r.created_at = imgA0.created_at ∧
      s'.users = s012.users ∧
      s'.images = s012.images.map (fun i => if i.id == 20 then r else i)) :=
  ⟨by decide, by decide, by decide, by decide, by decide,
   C5_update_partial s012 "tokA" 1 20 ⟨some "new title", none, none, some 7⟩ 42 imgA0
     (by decide) (by decide) (by decide) (by decide) (by decide)⟩

/-- Claim C7: for a resolved user, `create_image` with an absent or empty
`image_url` fails with `InvalidInput "image_url is required"` and returns
the store unchanged (no row inserted). -/
theorem C7_create_blank_url (s : Store) (g : String) (uid : Nat) (input : CreateInput)
    (newId now : Nat) (hres : resolveUser s g = some uid)
    (hurl : input.image_url = none ∨ input.image_url = some "") :
    create_image s g input newId now =
      (.error (.InvalidInput "image_url is required"), s) := by
  have hb : blankUrl input.image_url = true := by
    rcases hurl with h | h <;> simp [blankUrl, h]
  simp [create_image, hb]

theorem C7_create_blank_url_witness :
    resolveUser sAB "tokA" = some 1 ∧
    create_image sAB "tokA" ⟨some "t", some "", none⟩ 7 9 =
      (.error (.InvalidInput "image_url is required"), sAB) :=
  ⟨by decide,
   C7_create_blank_url sAB "tokA" 1 ⟨some "t", some "", none⟩ 7 9 (by decide)
     (Or.inr rfl)⟩

/-- Claim C9: `verify_guest` fails with `NotFound` when no user carries the
token; when the lookup finds a user `u`, it sets `last_accessed` of `u`'s
row to `now`, returns exactly `u`'s id, token and `created_at`, and leaves
the `id`, `guest_id` and `created_at` of every user row (and the whole
image table) unchanged in the store. -/
theorem C9_verify (s : Store) (g : String) (now : Nat) :
    ((∀ u ∈ s.users, u.guest_id ≠ g) →
      verify_guest s g now = (.error (.NotFound "Guest not found"), s)) ∧
    (∀ u, (s.users.filter (fun v => v.guest_id == g)).head? = some u →
      ∃ s', verify_guest s g now =
          (.ok { user_id := u.id, guest_id := u.guest_id, created_at := u.created_at }, s') ∧
        s'.images = s.images ∧
        s'.users = s.users.map
          (fun v => if v.id == u.id then { v with last_accessed := now } else v) ∧
        s'.users.map (fun v => (v.id, v.guest_id, v.created_at)) =
          s.users.map (fun v => (v.id, v.guest_id, v.created_at))) := by
  constructor
  · intro h
    have hfil : s.users.filter (fun u => u.guest_id == g) = [] := by
      rw [List.filter_eq_nil_iff]
      intro u hu
      simpa using h u hu
    simp [verify_guest, hfil]
  · intro u hu
    refine ⟨{ s with
        users :=
          s.users.map (fun v => if v.id == u.id then { v with last_accessed := now } else v) },
      ?_, rfl, rfl, ?_⟩
    · simp only [verify_guest, hu]
    · rw [List.map_map]
      refine List.map_congr_left ?_
      intro v _
      by_cases hv : (v.id == u.id) = true
      · simp only [Function.comp_apply, if_pos hv]
      · simp only [Function.comp_apply, if_neg hv]

theorem C9_verify_witness :
    verify_guest sEmpty "g" 5 = (.error (.NotFound "Guest not found"), sEmpty) ∧
    (∃ s', verify_guest sAB "tokB" 99 =
        (.ok { user_id := userB.id, guest_id := userB.guest_id,
               created_at := userB.created_at }, s') ∧
      s'.images = sAB.images ∧
      s'.users = sAB.users.map
        (fun v => if v.id == userB.id then { v with last_accessed := 99 } else v) ∧
      s'.users.map (fun v => (v.id, v.guest_id, v.created_at)) =
        sAB.users.map (fun v => (v.id, v.guest_id, v.created_at))) :=
  ⟨(C9_verify sEmpty "g" 5).1 (by decide),
   (C9_verify sAB "tokB" 99).2 userB (by decide)⟩

/-- Claim C10: for a resolved user, a reorder request whose body lacks the
`order` key (`none`) or carries an empty list succeeds with the same
`"Reordered"` confirmation as any non-empty reorder and returns the store
unchanged. -/
theorem C10_reorder_empty (s : Store) (g : String) (uid : Nat)
    (input : Option (List OrderItem))
    (hres : resolveUser s g = some uid)
    (hempty : input = none ∨ input = some []) :
    reorder_images s g input = (.ok "Reordered", s) ∧
    ∀ l : List OrderItem, (reorder_images s g (some l)).1 = .ok "Reordered" := by
  constructor
  · rcases hempty with rfl | rfl <;> simp [reorder_images, hres]
  · intro l
    simp [reorder_images, hres]

/-! Lemmas describing the reorder loop pointwise. -/

theorem applyItems_nil (uid : Nat) (img : Image) : applyItems uid [] img = img := rfl

theorem applyItems_cons (uid : Nat) (it : OrderItem) (rest : List OrderItem) (img : Image) :
    applyItems uid (it :: rest) img =
      applyItems uid rest
        (if img.id == it.id && img.user_id == uid
         then { img with display_order := it.order } else img) := rfl

theorem lastOrderFor_cons (it : OrderItem) (rest : List OrderItem) (imgId : Nat) :
    lastOrderFor (it :: rest) imgId =
      match lastOrderFor rest imgId with
      | some v => some v
      | none => if it.id == imgId then some it.order else none := rfl

theorem foldl_applyOrderItem (uid : Nat) (l : List OrderItem) (images : List Image) :
    l.foldl (applyOrderItem uid) images = images.map (applyItems uid l) := by
  induction l generalizing images with
  | nil =>
    have h1 : images.map (applyItems uid []) = images.map id :=
      List.map_congr_left (fun a _ => applyItems_nil uid a)
    rw [h1, List.map_id]
    rfl
  | cons it rest ih =>
    rw [List.foldl_cons, ih, applyOrderItem, List.map_map]
    exact List.map_congr_left (fun img _ => (applyItems_cons uid it rest img).symm)

theorem applyItems_not_owned {uid : Nat} {img : Image} (h : img.user_id ≠ uid)
    (l : List OrderItem) : applyItems uid l img = img := by
  induction l with
  | nil => rfl
  | cons it rest ih =>
    rw [applyItems_cons, if_neg (by simp [h]), ih]

theorem applyItems_owned {uid : Nat} (l : List OrderItem) (img : Image)
    (h : img.user_id = uid) :
    applyItems uid l img =
      { img with display_order := (lastOrderFor l img.id).getD img.display_order } := by
  induction l generalizing img with
  | nil => simp [applyItems_nil, lastOrderFor]
  | cons it rest ih =>
    rw [applyItems_cons, lastOrderFor_cons]
    by_cases hid : img.id = it.id
    · rw [if_pos (by simp [hid, h]), ih { img with display_order := it.order } h]
      cases hr : lastOrderFor rest img.id with
      | none => simp [hid, hr]
      | some v => simp [hr]
    · rw [if_neg (by simp [hid]), ih img h]
      have hit : (it.id == img.id) = false := by
        simp only [beq_eq_false_iff_ne, ne_eq]
        exact fun hc' => hid hc'.symm
      cases hr : lastOrderFor rest img.id with
      | none => simp [hr, hit]
      | some v => simp [hr]

/-! Lemmas about `maxDisplayOrder` and the descending-sorted head. -/

theorem maxDisplayOrder_eq_none {l : List Image} (h : maxDisplayOrder l = none) :
    l = [] := by
  cases l with
  | nil => rfl
  | cons i rest =>
    rw [maxDisplayOrder] at h
    cases hr : maxDisplayOrder rest <;> simp [hr] at h

theorem maxDisplayOrder_le {l : List Image} {m : Int} (h : maxDisplayOrder l = some m) :
    ∀ x ∈ l, x.display_order ≤ m := by
  induction l generalizing m with
  | nil => simp [maxDisplayOrder] at h
  | cons i rest ih =>
    rw [maxDisplayOrder] at h
    intro x hx
    cases hr : maxDisplayOrder rest with
    | none =>
      rw [hr] at h
      have hnil := maxDisplayOrder_eq_none hr
      subst hnil
      rcases List.mem_cons.mp hx with rfl | hx'
      · simp at h
        omega
      · simp at hx'
    | some m' =>
      rw [hr] at h
      simp only [Option.some.injEq] at h
      rcases List.mem_cons.mp hx with rfl | hx'
      · rw [← h]
        exact le_max_left _ _
      · exact le_trans (ih hr x hx') (h ▸ le_max_right _ _)

theorem maxDisplayOrder_mem {l : List Image} {m : Int} (h : maxDisplayOrder l = some m) :
    ∃ x ∈ l, x.display_order = m := by
  induction l generalizing m with
  | nil => simp [maxDisplayOrder] at h
  | cons i rest ih =>
    rw [maxDisplayOrder] at h
    cases hr : maxDisplayOrder rest with
    | none =>
      rw [hr] at h
      simp only [Option.some.injEq] at h
      exact ⟨i, List.mem_cons_self i rest, h⟩
    | some m' =>
      rw [hr] at h
      simp only [Option.some.injEq] at h
      rcases le_total i.display_order m' with hle | hle
      · obtain ⟨x, hx, hxm⟩ := ih hr
        refine ⟨x, List.mem_cons_of_mem i hx, ?_⟩
        rw [hxm, ← h]
        exact (max_eq_right hle).symm
      · refine ⟨i, List.mem_cons_self i rest, ?_⟩
        rw [← h]
        exact (max_eq_left hle).symm

/-- The head of the descending sort carries the maximal `display_order`:
the `order(desc).limit(1)` query in `create_image` computes the maximum,
with `-1` as the default for an empty collection. -/
theorem desc_head_eq_max (l : List Image) :
    (((List.insertionSort imgGE l).head?.map (fun i => i.display_order)).getD (-1)) =
      (maxDisplayOrder l).getD (-1) := by
  cases hm : maxDisplayOrder l with
  | none =>
    have : l = [] := maxDisplayOrder_eq_none hm
    subst this
    rfl
  | some m =>
    have hperm : List.Perm (List.insertionSort imgGE l) l := List.perm_insertionSort imgGE l
    cases hs : List.insertionSort imgGE l with
    | nil =>
      rw [hs] at hperm
      have : l = [] := hperm.symm.eq_nil
      subst this
      simp [maxDisplayOrder] at hm
    | cons h t =>
      have hsorted : List.Sorted imgGE (h :: t) := hs ▸ List.sorted_insertionSort imgGE l
      have hmem : h ∈ l := hperm.subset (hs ▸ List.mem_cons_self h t)
      have hle : h.display_order ≤ m := maxDisplayOrder_le hm h hmem
      obtain ⟨x, hx, hxm⟩ := maxDisplayOrder_mem hm
      have hxsort : x ∈ h :: t := hs ▸ hperm.symm.subset hx
      have hge : m ≤ h.display_order := by
        rcases List.mem_cons.mp hxsort with rfl | hxt
        · omega
        · have := List.rel_of_sorted_cons hsorted x hxt
          rw [imgGE] at this
          omega
      simp only [List.head?_cons, Option.map_some', Option.getD_some, hm]
      omega

/-- Claim C3: for a resolved user and a valid `image_url`, `create_image`
assigns the new image a `display_order` equal to 1 plus the maximal
`display_order` among that user's existing images, or 0 when the user has
none; the new row is appended to the table and returned. -/
theorem C3_create_next_order (s : Store) (g : String) (uid : Nat)
    (input : CreateInput) (newId now : Nat)
    (hres : resolveUser s g = some uid)
    (hurl : blankUrl input.image_url = false) :
    ∃ img s', create_image s g input newId now = (.ok img, s') ∧
      img.display_order =
        (match maxDisplayOrder (userImages s uid) with
         | none => 0
         | some m => m + 1) ∧
      img.user_id = uid ∧
      s'.images = s.images ++ [img] := by
  have hstep : create_image s g input newId now =
      (.ok { id := newId
             user_id := uid
             title := input.title.getD "Untitled"
             image_url := input.image_url.getD ""
             description := input.description.getD ""
             display_order :=
               (((List.insertionSort imgGE (userImages s uid)).head?.map
                  (fun i => i.display_order)).getD (-1)) + 1
             created_at := now
             updated_at := now },
       { s with images := s.images ++
           [{ id := newId
              user_id := uid
              title := input.title.getD "Untitled"
              image_url := input.image_url.getD ""
              description := input.description.getD ""
              display_order :=
                (((List.insertionSort imgGE (userImages s uid)).head?.map
                   (fun i => i.display_order)).getD (-1)) + 1
              created_at := now
              updated_at := now }] }) := by
    unfold create_image
    rw [hurl, hres]
    rfl
  refine ⟨_, _, hstep, ?_, rfl, rfl⟩
  rw [desc_head_eq_max]
  cases hm : maxDisplayOrder (userImages s uid) <;> simp [hm]

theorem C3_create_next_order_witness :
    resolveUser s012 "tokA" = some 1 ∧
    blankUrl (some "http://x/new.png") = false ∧
    maxDisplayOrder (userImages s012 1) = some 2 ∧
    (∃ img s',
      create_image s012 "tokA" ⟨some "n", some "http://x/new.png", none⟩ 23 9 =
        (.ok img, s') ∧
      img.display_order =
        (match maxDisplayOrder (userImages s012 1) with
         | none => 0
         | some m => m + 1) ∧
      img.user_id = 1 ∧
      s'.images = s012.images ++ [img]) :=
  ⟨by decide, by decide, by decide,
   C3_create_next_order s012 "tokA" 1 ⟨some "n", some "http://x/new.png", none⟩ 23 9
     (by decide) (by decide)⟩

/-- Claim C6: for a resolved user, `reorder_images` succeeds with
`"Reordered"` and rewrites the table pointwise: an image owned by that user
gets the `order` value of the last pair in the list carrying its id (its
own old value when no pair matches, i.e. silently unchanged), and an image
of any other user is untouched; no pair ever raises an error. -/
theorem C6_reorder_per_item (s : Store) (g : String) (uid : Nat)
    (order_list : List OrderItem)
    (hres : resolveUser s g = some uid) :
    reorder_images s g (some order_list) =
      (.ok "Reordered",
       { s with images := s.images.map (fun img =>
           if img.user_id = uid then
             { img with
               display_order := (lastOrderFor order_list img.id).getD img.display_order }
           else img) }) := by
  unfold reorder_images
  rw [hres]
  simp only [Option.getD_some]
  rw [foldl_applyOrderItem]
  have hfun : ∀ img ∈ s.images, applyItems uid order_list img =
      (if img.user_id = uid then
        { img with
          display_order := (lastOrderFor order_list img.id).getD img.display_order }
       else img) := by
    intro img _
    by_cases h : img.user_id = uid
    · rw [if_pos h]
      exact applyItems_owned order_list img h
    · rw [if_neg h]
      exact applyItems_not_owned h order_list
  rw [List.map_congr_left hfun]

theorem C6_reorder_per_item_witness :
    resolveUser s012 "tokA" = some 1 ∧
    reorder_images s012 "tokA" (some [⟨20, 5⟩, ⟨10, 7⟩, ⟨20, 9⟩]) =
      (.ok "Reordered",
       { s012 with images := s012.images.map (fun img =>
           if img.user_id = 1 then
             { img with
               display_order :=
                 (lastOrderFor [⟨20, 5⟩, ⟨10, 7⟩, ⟨20, 9⟩] img.id).getD img.display_order }
           else img) }) :=
  ⟨by decide, C6_reorder_per_item s012 "tokA" 1 [⟨20, 5⟩, ⟨10, 7⟩, ⟨20, 9⟩] (by decide)⟩

theorem C10_reorder_empty_witness :
    resolveUser s012 "tokA" = some 1 ∧
    (reorder_images s012 "tokA" none = (.ok "Reordered", s012) ∧
     ∀ l : List OrderItem, (reorder_images s012 "tokA" (some l)).1 = .ok "Reordered") :=
  ⟨by decide, C10_reorder_empty s012 "tokA" 1 none (by decide) (Or.inl rfl)⟩

end Gallery
